import Mathlib

set_option maxHeartbeats 1000000
set_option maxRecDepth 10000

/-!
Verification of the `break` timer store (`src/database.rs`) and its daemon
loop (`src/daemon.rs`).

Shallow embedding conventions:
* Unix timestamps (`OffsetDateTime` serialized as integer seconds) are `Int`.
* `u32` arithmetic (the `next_id` counter) is `Nat` reduced modulo `2 ^ 32`
  at the one place the source increments it.
* The wall clock and freshly generated UUIDs are passed as explicit
  parameters where the source reads `OffsetDateTime::now_utc()` or calls
  `Uuid::new_v4()`.
* Fallible operations return `Except`/`Option`, mirroring `Result`/`Option`
  in the source.
-/

/-- Unix timestamp in seconds, the value persisted for `OffsetDateTime`. -/
abbrev Timestamp := Int

/-- The `Timer` record of `database.rs`. UUIDs are opaque to every piece of
program logic modelled here, so they are represented by `Nat`. -/
structure Timer where
  uuid : Nat
  id : Nat
  message : String
  duration_seconds : Nat
  created_at : Timestamp
  due_at : Timestamp
  urgent : Bool
  sound : Bool
  recurring : Bool
  deriving DecidableEq, Repr

/-- The `Database` aggregate of `database.rs`: active timers, bounded
history, and the `next_id : u32` counter. -/
structure Database where
  timers : List Timer
  history : List Timer
  next_id : Nat
  deriving DecidableEq, Repr

/-- Modulus of the `u32` type of `Database.next_id`. -/
def U32_MOD : Nat := 2 ^ 32

/-- `MAX_DURATION_SECONDS` from `Database::add_timer` (1 year). -/
def MAX_DURATION_SECONDS : Nat := 365 * 24 * 60 * 60

/-- `MAX_HISTORY` from `Database::add_to_history`. -/
def MAX_HISTORY : Nat := 20

/-- `SECONDS_PER_HOUR` from `daemon.rs`. -/
def SECONDS_PER_HOUR : Nat := 3600

/-- `Database::new`: empty lists, `next_id = 1`. -/
def Database.new : Database :=
  { timers := [], history := [], next_id := 1 }

/-- `Database::add_timer`. Validates the duration, stamps `created_at = now`
and `due_at = now + duration`, assigns `id = next_id`, increments `next_id`
(`u32` wrapping arithmetic), and pushes the timer onto the active list.
`now` and `uuid` stand for the clock read and the fresh UUID. -/
def Database.add_timer (db : Database) (message : String) (duration_seconds : Nat)
    (urgent sound recurring : Bool) (now : Timestamp) (uuid : Nat) :
    Except String (Timer × Database) :=
  if duration_seconds > MAX_DURATION_SECONDS then
    Except.error ("Duration too large (max " ++ toString (MAX_DURATION_SECONDS / 86400) ++ " days)")
  else
    let due_at : Timestamp := now + (duration_seconds : Int)
    let timer : Timer :=
      { uuid := uuid, id := db.next_id, message := message,
        duration_seconds := duration_seconds, created_at := now, due_at := due_at,
        urgent := urgent, sound := sound, recurring := recurring }
    Except.ok (timer,
      { db with next_id := (db.next_id + 1) % U32_MOD, timers := db.timers ++ [timer] })

/-- Helper for `Database::reset_timer`: `iter_mut().find(|t| t.id == id)`
re-stamps the first timer with the given id in place. -/
def resetFirst (id : Nat) (now : Timestamp) : List Timer → Option (Timer × List Timer)
  | [] => none
  | t :: ts =>
    if t.id = id then
      let t2 := { t with due_at := now + (t.duration_seconds : Int), created_at := now }
      some (t2, t2 :: ts)
    else
      match resetFirst id now ts with
      | none => none
      | some (u, ts2) => some (u, t :: ts2)

/-- `Database::reset_timer`: re-stamp `created_at`/`due_at` of the timer with
the given id from the current time and return the updated copy; `none` if
absent. -/
def Database.reset_timer (db : Database) (id : Nat) (now : Timestamp) :
    Option Timer × Database :=
  match resetFirst id now db.timers with
  | none => (none, db)
  | some (t, ts) => (some t, { db with timers := ts })

/-- Helper for `Database::remove_timer`/`complete_timer`:
`position(|t| t.id == id)` followed by `Vec::remove` takes out the first
timer with the given id. -/
def removeFirst (id : Nat) : List Timer → Option (Timer × List Timer)
  | [] => none
  | t :: ts =>
    if t.id = id then some (t, ts)
    else
      match removeFirst id ts with
      | none => none
      | some (u, ts2) => some (u, t :: ts2)

/-- `Database::remove_timer`: drop the timer with the given id from the
active list only. -/
def Database.remove_timer (db : Database) (id : Nat) : Option Timer × Database :=
  match removeFirst id db.timers with
  | none => (none, db)
  | some (t, ts) => (some t, { db with timers := ts })

/-- `Database::add_to_history`: insert at the front, then truncate to
`MAX_HISTORY` entries when the cap is exceeded. -/
def Database.add_to_history (db : Database) (timer : Timer) : Database :=
  let h := timer :: db.history
  { db with history := if h.length > MAX_HISTORY then h.take MAX_HISTORY else h }

/-- `Database::complete_timer`: remove from the active list, then
`add_to_history` a clone of the removed timer. -/
def Database.complete_timer (db : Database) (id : Nat) : Option Timer × Database :=
  match removeFirst id db.timers with
  | none => (none, db)
  | some (t, ts) => (some t, Database.add_to_history { db with timers := ts } t)

/-- `Database::clear_all`: wipe the active list. -/
def Database.clear_all (db : Database) : Database := { db with timers := [] }

/-- `Database::clear_history`: wipe the history list. -/
def Database.clear_history (db : Database) : Database := { db with history := [] }

/-- `Database::get_expired_timers`: clones of the active timers with
`due_at <= now`. The database itself is taken immutably (`&self`). -/
def Database.get_expired_timers (db : Database) (now : Timestamp) : List Timer :=
  db.timers.filter (fun t => decide (t.due_at ≤ now))

/-- On-disk contents of the backing file inside `with_transaction`:
freshly created / truncated to length 0 (`empty`), a well-formed serialized
`Database` (`stored`), or bytes that fail deserialization (`corrupt`). -/
inductive FileContents where
  | empty
  | stored (db : Database)
  | corrupt
  deriving DecidableEq, Repr

/-- Error kinds surfaced by `with_transaction`: a deserialization failure of
the on-disk bytes, or an error returned by the caller-supplied mutation. -/
inductive TxError where
  | corruptState
  | mutationError (msg : String)
  deriving DecidableEq, Repr

/-- The load step of `with_transaction`: a zero-length file yields
`Database::new()`, otherwise the bytes are deserialized, failing with the
corrupted-state error. -/
def parseContents : FileContents → Except TxError Database
  | .empty => .ok Database.new
  | .stored db => .ok db
  | .corrupt => .error .corruptState

/-- `Database::with_transaction`. The whole open → lock → read → mutate →
write → unlock sequence is modelled as a function from the prior on-disk
state (`none` = file absent) to the new on-disk state plus the returned
value. `OpenOptions::create(true)` materializes an absent file as an empty
one before anything else happens; the write step runs only when the
mutation `f` succeeds. -/
def with_transaction {T : Type} (f : Database → Except String (Database × T))
    (disk : Option FileContents) : Option FileContents × Except TxError T :=
  let contents := disk.getD FileContents.empty
  match parseContents contents with
  | .error e => (some contents, .error e)
  | .ok db =>
    match f db with
    | .error e => (some contents, .error (.mutationError e))
    | .ok (db2, v) => (some (.stored db2), .ok v)

/-- `db.timers.iter().min_by_key(|t| t.due_at)` from `run_daemon`: the first
timer attaining the minimal `due_at`, `none` on an empty list. -/
def minByDue : List Timer → Option Timer
  | [] => none
  | t :: ts =>
    match minByDue ts with
    | none => some t
    | some u => if t.due_at ≤ u.due_at then some t else some u

/-- The sleep-interval computation of `run_daemon`: `(due_at - now) + 1`
seconds when the earliest due time is still in the future, `1` second when
it is already due, `30` seconds when no timer is found, and the result
capped at `SECONDS_PER_HOUR`. -/
def sleep_seconds (timers : List Timer) (now : Timestamp) : Nat :=
  let base :=
    match minByDue timers with
    | some next =>
      let seconds := next.due_at - now
      if seconds > 0 then (seconds + 1).toNat else 1
    | none => 30
  min base SECONDS_PER_HOUR

/-- The per-expired-timer handling of `run_daemon` (the notification call is
a pure side effect with no influence on the store, so it is not modelled):
a recurring timer is copied into history and reset in place; a one-shot
timer is completed. -/
def processExpiredTimer (db : Database) (t : Timer) (now : Timestamp) : Database :=
  if t.recurring then
    ((Database.add_to_history db t).reset_timer t.id now).2
  else
    (db.complete_timer t.id).2

/-- One iteration of the daemon loop body: compute the expired timers at
time `now` and process each in order. -/
def daemonIteration (db : Database) (now : Timestamp) : Database :=
  (db.get_expired_timers now).foldl (fun d t => processExpiredTimer d t now) db

/-- Daemon-process state: the store plus whether the PID marker file is
present. `run_daemon` writes the marker before entering the loop and
removes it on normal exit. -/
structure DaemonState where
  db : Database
  pidFilePresent : Bool
  deriving DecidableEq, Repr

/-- The daemon polling loop, fuelled to stay total: each surviving
iteration processes the expired timers for the clock reading of that
iteration, then exits (removing the marker file) exactly when the active
list has become empty. `none` means the fuel ran out before termination. -/
def daemonLoop (clock : Nat → Timestamp) : Nat → Nat → DaemonState → Option DaemonState
  | 0, _, _ => none
  | fuel + 1, i, st =>
    let db2 := daemonIteration st.db (clock i)
    if db2.timers.isEmpty then some { db := db2, pidFilePresent := false }
    else daemonLoop clock fuel (i + 1) { st with db := db2 }

/-- One mutating store operation, used to quantify over "any sequence of
store operations". The `add` constructor carries the clock reading and the
fresh UUID of that call. -/
inductive Op where
  | add (message : String) (duration_seconds : Nat) (urgent sound recurring : Bool)
      (now : Timestamp) (uuid : Nat)
  | reset (id : Nat) (now : Timestamp)
  | remove (id : Nat)
  | complete (id : Nat)
  | addHistory (t : Timer)
  | clearAll
  | clearHistory
  deriving Repr

/-- Apply one operation to the store. A rejected `add` (duration too large)
leaves the store unchanged, as in the source. -/
def applyOp (db : Database) : Op → Database
  | .add m d u s r now uuid =>
    match db.add_timer m d u s r now uuid with
    | .ok (_, db2) => db2
    | .error _ => db
  | .reset id now => (db.reset_timer id now).2
  | .remove id => (db.remove_timer id).2
  | .complete id => (db.complete_timer id).2
  | .addHistory t => db.add_to_history t
  | .clearAll => db.clear_all
  | .clearHistory => db.clear_history

/-- Run a sequence of operations left to right. -/
def runOps : List Op → Database → Database
  | [], db => db
  | op :: ops, db => runOps ops (applyOp db op)

/-- An `add` operation that passes the duration validation and therefore
issues an id. -/
def isEffectiveAdd : Op → Bool
  | .add _ d _ _ _ _ _ => decide (d ≤ MAX_DURATION_SECONDS)
  | _ => false

/-- Number of id-issuing adds in a sequence of operations. -/
def countAdds (ops : List Op) : Nat := (ops.filter isEffectiveAdd).length

/-- The ids issued by one operation against the given store (the id of the
timer returned by a successful `add`). -/
def opIssues (db : Database) : Op → List Nat
  | .add m d u s r now uuid =>
    match db.add_timer m d u s r now uuid with
    | .ok (t, _) => [t.id]
    | .error _ => []
  | _ => []

/-- All ids issued while running a sequence of operations, in order. -/
def issuedIds : List Op → Database → List Nat
  | [], _ => []
  | op :: ops, db => opIssues db op ++ issuedIds ops (applyOp db op)

/-- Phase of one process running `with_transaction` in the two-writer
concurrency model: before the lock, holding the lock (just locked / after
the read / after the mutation / after the write), and finished. -/
inductive TxPhase where
  | start
  | locked
  | loaded (db : Database)
  | mutated (db : Database)
  | written
  | done
  deriving DecidableEq, Repr

/-- Global state of the two-writer system: the persisted store, which
process (if any) holds the exclusive lock, and each process's phase. -/
structure Sys where
  disk : Database
  lock : Option Bool
  p0 : TxPhase
  p1 : TxPhase
  deriving DecidableEq, Repr

/-- The caller-supplied mutation of the concurrent-writer property: one
increment of the shared counter field (the store's `next_id`, incremented
exactly as `add_timer` does). -/
def incrementCounter (db : Database) : Database :=
  { db with next_id := (db.next_id + 1) % U32_MOD }

/-- One micro-step of a single process inside `with_transaction`, returning
the new disk contents, lock owner, and phase. Acquiring the exclusive lock
blocks (no state change) while the other process holds it; the read happens
only after the lock is granted, and the lock is released only after the
write. -/
def phaseStep (s : Sys) (me : Bool) : TxPhase → Database × (Option Bool × TxPhase)
  | .start => if s.lock = none then (s.disk, (some me, .locked)) else (s.disk, (s.lock, .start))
  | .locked => (s.disk, (s.lock, .loaded s.disk))
  | .loaded db => (s.disk, (s.lock, .mutated (incrementCounter db)))
  | .mutated db => (db, (s.lock, .written))
  | .written => (s.disk, (none, .done))
  | .done => (s.disk, (s.lock, .done))

/-- Let the scheduled process take one micro-step. -/
def sysStep (s : Sys) (who : Bool) : Sys :=
  if who then
    let r := phaseStep s true s.p1
    { disk := r.1, lock := r.2.1, p0 := s.p0, p1 := r.2.2 }
  else
    let r := phaseStep s false s.p0
    { disk := r.1, lock := r.2.1, p0 := r.2.2, p1 := s.p1 }

/-- Run an arbitrary interleaving (schedule) of the two processes. -/
def sysRun : List Bool → Sys → Sys
  | [], s => s
  | w :: ws, s => sysRun ws (sysStep s w)

/-- Initial system state: a fresh store on disk, lock free, both processes
about to start their transaction. -/
def initSys : Sys :=
  { disk := Database.new, lock := none, p0 := .start, p1 := .start }

example :
    (Database.new.add_timer "Test" 300 false false false 0 7).toOption.map
      (fun p => (p.1.id, p.2.next_id, p.2.timers.length)) = some (1, 2, 1) := by decide

/-! ### Helper lemmas about the store operations -/

theorem add_to_history_history (db : Database) (t : Timer) :
    (db.add_to_history t).history = (t :: db.history).take MAX_HISTORY := by
  unfold Database.add_to_history
  by_cases h : (t :: db.history).length > MAX_HISTORY
  · simp [h]
  · simp only [h, if_false]
    exact (List.take_of_length_le (Nat.le_of_not_lt h)).symm

theorem add_to_history_timers (db : Database) (t : Timer) :
    (db.add_to_history t).timers = db.timers := by
  unfold Database.add_to_history
  by_cases h : (t :: db.history).length > MAX_HISTORY <;> simp [h]

theorem add_to_history_next_id (db : Database) (t : Timer) :
    (db.add_to_history t).next_id = db.next_id := by
  unfold Database.add_to_history
  by_cases h : (t :: db.history).length > MAX_HISTORY <;> simp [h]

theorem add_to_history_length_le (db : Database) (t : Timer) :
    (db.add_to_history t).history.length ≤ MAX_HISTORY := by
  rw [add_to_history_history]
  calc ((t :: db.history).take MAX_HISTORY).length
      = min MAX_HISTORY (t :: db.history).length := List.length_take _ _
    _ ≤ MAX_HISTORY := Nat.min_le_left _ _

theorem removeFirst_length (id : Nat) :
    ∀ (ts : List Timer) (t : Timer) (ts2 : List Timer),
      removeFirst id ts = some (t, ts2) → ts2.length + 1 = ts.length := by
  intro ts
  induction ts with
  | nil => intro t ts2 h; simp [removeFirst] at h
  | cons x xs ih =>
    intro t ts2 h
    by_cases hx : x.id = id
    · simp [removeFirst, hx] at h
      simp [h]
    · simp only [removeFirst, hx, if_false] at h
      cases hrec : removeFirst id xs with
      | none => rw [hrec] at h; simp at h
      | some p =>
        rw [hrec] at h
        simp at h
        rcases h with ⟨h1, h2⟩
        have := ih p.1 p.2 (by rw [hrec])
        simp [← h2, List.length_cons]
        omega

theorem removeFirst_append (id : Nat) (pre : List Timer) (u : Timer) (post : List Timer)
    (hpre : ∀ w ∈ pre, w.id ≠ id) (hu : u.id = id) :
    removeFirst id (pre ++ u :: post) = some (u, pre ++ post) := by
  induction pre with
  | nil => simp [removeFirst, hu]
  | cons x xs ih =>
    have hx : x.id ≠ id := hpre x (List.mem_cons_self _ _)
    have ih2 := ih (fun w hw => hpre w (List.mem_cons_of_mem _ hw))
    simp [removeFirst, hx, ih2]

theorem removeFirst_none (id : Nat) (ts : List Timer)
    (h : ∀ w ∈ ts, w.id ≠ id) : removeFirst id ts = none := by
  induction ts with
  | nil => rfl
  | cons x xs ih =>
    have hx : x.id ≠ id := h x (List.mem_cons_self _ _)
    have ih2 := ih (fun w hw => h w (List.mem_cons_of_mem _ hw))
    simp [removeFirst, hx, ih2]

theorem resetFirst_append (id : Nat) (now : Timestamp) (pre : List Timer) (u : Timer)
    (post : List Timer) (hpre : ∀ w ∈ pre, w.id ≠ id) (hu : u.id = id) :
    resetFirst id now (pre ++ u :: post) =
      some ({ u with due_at := now + (u.duration_seconds : Int), created_at := now },
        pre ++ { u with due_at := now + (u.duration_seconds : Int), created_at := now } :: post) := by
  induction pre with
  | nil => simp [resetFirst, hu]
  | cons x xs ih =>
    have hx : x.id ≠ id := hpre x (List.mem_cons_self _ _)
    have ih2 := ih (fun w hw => hpre w (List.mem_cons_of_mem _ hw))
    simp [resetFirst, hx, ih2]

theorem resetFirst_none (id : Nat) (now : Timestamp) (ts : List Timer)
    (h : ∀ w ∈ ts, w.id ≠ id) : resetFirst id now ts = none := by
  induction ts with
  | nil => rfl
  | cons x xs ih =>
    have hx : x.id ≠ id := h x (List.mem_cons_self _ _)
    have ih2 := ih (fun w hw => h w (List.mem_cons_of_mem _ hw))
    simp [resetFirst, hx, ih2]

theorem reset_timer_history (db : Database) (id : Nat) (now : Timestamp) :
    (db.reset_timer id now).2.history = db.history := by
  unfold Database.reset_timer
  cases resetFirst id now db.timers <;> simp

theorem reset_timer_next_id (db : Database) (id : Nat) (now : Timestamp) :
    (db.reset_timer id now).2.next_id = db.next_id := by
  unfold Database.reset_timer
  cases resetFirst id now db.timers <;> simp

example :
    (Database.new.add_timer "Too long" (MAX_DURATION_SECONDS + 1) false false false 0 7) =
      Except.error "Duration too large (max 365 days)" := by rfl

theorem complete_timer_next_id (db : Database) (id : Nat) :
    (db.complete_timer id).2.next_id = db.next_id := by
  unfold Database.complete_timer
  cases removeFirst id db.timers with
  | none => simp
  | some p => simp [add_to_history_next_id]

theorem remove_timer_next_id (db : Database) (id : Nat) :
    (db.remove_timer id).2.next_id = db.next_id := by
  unfold Database.remove_timer
  cases removeFirst id db.timers <;> simp

theorem next_id_applyOp (db : Database) (op : Op) (h : isEffectiveAdd op = false) :
    (applyOp db op).next_id = db.next_id := by
  cases op with
  | add m d u s r now uuid =>
    simp [isEffectiveAdd] at h
    have : d > MAX_DURATION_SECONDS := h
    simp [applyOp, Database.add_timer, this]
  | reset id now => exact reset_timer_next_id db id now
  | remove id => exact remove_timer_next_id db id
  | complete id => exact complete_timer_next_id db id
  | addHistory t => exact add_to_history_next_id db t
  | clearAll => rfl
  | clearHistory => rfl

theorem effectiveAdd_applyOp (db : Database) (m : String) (d : Nat) (u s r : Bool)
    (now : Timestamp) (uuid : Nat) (h : d ≤ MAX_DURATION_SECONDS) :
    (applyOp db (.add m d u s r now uuid)).next_id = (db.next_id + 1) % U32_MOD ∧
    opIssues db (.add m d u s r now uuid) = [db.next_id] := by
  have hd : ¬ d > MAX_DURATION_SECONDS := Nat.not_lt.mpr h
  constructor
  · simp [applyOp, Database.add_timer, hd]
  · simp [opIssues, Database.add_timer, hd]

theorem runOps_no_wrap :
    ∀ (ops : List Op) (db : Database),
      db.next_id + countAdds ops < U32_MOD →
      (runOps ops db).next_id = db.next_id + countAdds ops ∧
      issuedIds ops db = List.range' db.next_id (countAdds ops) := by
  intro ops
  induction ops with
  | nil => intro db _; simp [runOps, issuedIds, countAdds, List.range']
  | cons op ops ih =>
    intro db hlt
    by_cases heff : isEffectiveAdd op = true
    · cases op with
      | add m d u s r now uuid =>
        have hd : d ≤ MAX_DURATION_SECONDS := by simpa [isEffectiveAdd] using heff
        have hcount : countAdds (Op.add m d u s r now uuid :: ops) = countAdds ops + 1 := by
          simp [countAdds, List.filter, heff]
        rw [hcount] at hlt
        have hstep := effectiveAdd_applyOp db m d u s r now uuid hd
        have hnext1 : db.next_id + 1 < U32_MOD := by omega
        have hmod : (db.next_id + 1) % U32_MOD = db.next_id + 1 := Nat.mod_eq_of_lt hnext1
        have hrec := ih (applyOp db (.add m d u s r now uuid)) (by rw [hstep.1, hmod]; omega)
        constructor
        · show (runOps ops (applyOp db (.add m d u s r now uuid))).next_id = _
          rw [hrec.1, hstep.1, hmod, hcount]
          omega
        · show opIssues db (.add m d u s r now uuid) ++
            issuedIds ops (applyOp db (.add m d u s r now uuid)) = _
          rw [hstep.2, hrec.2, hstep.1, hmod, hcount]
          rfl
      | reset id now => simp [isEffectiveAdd] at heff
      | remove id => simp [isEffectiveAdd] at heff
      | complete id => simp [isEffectiveAdd] at heff
      | addHistory t => simp [isEffectiveAdd] at heff
      | clearAll => simp [isEffectiveAdd] at heff
      | clearHistory => simp [isEffectiveAdd] at heff
    · have heq : isEffectiveAdd op = false := by
        cases hb : isEffectiveAdd op
        · rfl
        · exact absurd hb heff
      have hcount : countAdds (op :: ops) = countAdds ops := by
        simp [countAdds, List.filter, heq]
      have hnop := next_id_applyOp db op heq
      rw [hcount] at hlt
      have hrec := ih (applyOp db op) (by rw [hnop]; exact hlt)
      have hiss : opIssues db op = [] := by
        cases op with
        | add m d u s r now uuid =>
          have : d > MAX_DURATION_SECONDS := by simpa [isEffectiveAdd] using heq
          simp [opIssues, Database.add_timer, this]
        | reset id now => rfl
        | remove id => rfl
        | complete id => rfl
        | addHistory t => rfl
        | clearAll => rfl
        | clearHistory => rfl
      constructor
      · show (runOps ops (applyOp db op)).next_id = _
        rw [hrec.1, hnop, hcount]
      · show opIssues db op ++ issuedIds ops (applyOp db op) = _
        rw [hiss, hrec.2, hnop, hcount]
        rfl

theorem remove_timer_history (db : Database) (id : Nat) :
    (db.remove_timer id).2.history = db.history := by
  unfold Database.remove_timer
  cases removeFirst id db.timers <;> simp

theorem complete_timer_history_le (db : Database) (id : Nat)
    (h : db.history.length ≤ MAX_HISTORY) :
    (db.complete_timer id).2.history.length ≤ MAX_HISTORY := by
  unfold Database.complete_timer
  cases removeFirst id db.timers with
  | none => simpa using h
  | some p => simpa using add_to_history_length_le { db with timers := p.2 } p.1

theorem history_le_applyOp (db : Database) (op : Op)
    (h : db.history.length ≤ MAX_HISTORY) :
    (applyOp db op).history.length ≤ MAX_HISTORY := by
  cases op with
  | add m d u s r now uuid =>
    by_cases hd : d > MAX_DURATION_SECONDS
    · simpa [applyOp, Database.add_timer, hd] using h
    · simpa [applyOp, Database.add_timer, hd] using h
  | reset id now => simpa [applyOp, reset_timer_history] using h
  | remove id => simpa [applyOp, remove_timer_history] using h
  | complete id => exact complete_timer_history_le db id h
  | addHistory t => exact add_to_history_length_le db t
  | clearAll => simpa [applyOp, Database.clear_all] using h
  | clearHistory => simp [applyOp, Database.clear_history]

theorem history_le_runOps :
    ∀ (ops : List Op) (db : Database), db.history.length ≤ MAX_HISTORY →
      (runOps ops db).history.length ≤ MAX_HISTORY := by
  intro ops
  induction ops with
  | nil => intro db h; exact h
  | cons op ops ih => intro db h; exact ih _ (history_le_applyOp db op h)

/-- The add operation used by the id-wraparound run: a small always-valid
duration. -/
def addSmall : Op := Op.add "x" 5 false false false 0 0

theorem applyOp_addSmall_next_id (db : Database) :
    (applyOp db addSmall).next_id = (db.next_id + 1) % U32_MOD :=
  (effectiveAdd_applyOp db "x" 5 false false false 0 0 (by norm_num [MAX_DURATION_SECONDS])).1

theorem runOps_replicate_addSmall :
    ∀ (k : Nat) (db : Database), db.next_id < U32_MOD →
      (runOps (List.replicate k addSmall) db).next_id = (db.next_id + k) % U32_MOD := by
  intro k
  induction k with
  | zero =>
    intro db h
    simpa [runOps] using (Nat.mod_eq_of_lt h).symm
  | succ k ih =>
    intro db h
    rw [List.replicate_succ]
    show (runOps (List.replicate k addSmall) (applyOp db addSmall)).next_id = _
    have hlt : (db.next_id + 1) % U32_MOD < U32_MOD :=
      Nat.mod_lt _ (by norm_num [U32_MOD])
    rw [ih (applyOp db addSmall) (by rw [applyOp_addSmall_next_id]; exact hlt),
      applyOp_addSmall_next_id, Nat.mod_add_mod]
    ring_nf

/-- The store obtained by issuing `2 ^ 32 - 1` ids from a fresh store: its
`u32` id counter has wrapped around to `0`. -/
def wrapStore : Database := runOps (List.replicate (U32_MOD - 1) addSmall) Database.new

theorem wrapStore_next_id : wrapStore.next_id = 0 := by
  unfold wrapStore
  rw [runOps_replicate_addSmall (U32_MOD - 1) Database.new (by norm_num [U32_MOD, Database.new])]
  norm_num [U32_MOD, Database.new]

theorem one_mem_issued_wrap :
    1 ∈ issuedIds (List.replicate (U32_MOD - 1) addSmall) Database.new := by
  have hsucc : U32_MOD - 1 = (U32_MOD - 2) + 1 := by norm_num [U32_MOD]
  rw [hsucc, List.replicate_succ]
  show 1 ∈ opIssues Database.new addSmall ++ _
  have : opIssues Database.new addSmall = [1] :=
    (effectiveAdd_applyOp Database.new "x" 5 false false false 0 0
      (by norm_num [MAX_DURATION_SECONDS])).2
  rw [this]
  exact List.mem_append_left _ (List.mem_singleton_self 1)

theorem minByDue_eq_none (ts : List Timer) : minByDue ts = none ↔ ts = [] := by
  cases ts with
  | nil => simp [minByDue]
  | cons x xs =>
    simp only [minByDue]
    cases minByDue xs with
    | none => simp
    | some u =>
      by_cases h : x.due_at ≤ u.due_at <;> simp [h]

theorem minByDue_spec :
    ∀ (ts : List Timer) (t : Timer), minByDue ts = some t →
      t ∈ ts ∧ ∀ u ∈ ts, t.due_at ≤ u.due_at := by
  intro ts
  induction ts with
  | nil => intro t h; simp [minByDue] at h
  | cons x xs ih =>
    intro t h
    simp only [minByDue] at h
    cases hxs : minByDue xs with
    | none =>
      rw [hxs] at h
      have hnil : xs = [] := (minByDue_eq_none xs).mp hxs
      subst hnil
      simp at h
      subst h
      exact ⟨List.mem_singleton_self x, by intro u hu; simp at hu; simp [hu]⟩
    | some m =>
      rw [hxs] at h
      have hm := ih m hxs
      by_cases hle : x.due_at ≤ m.due_at
      · simp [hle] at h
        subst h
        refine ⟨List.mem_cons_self _ _, ?_⟩
        intro u hu
        rcases List.mem_cons.mp hu with hu | hu
        · simp [hu]
        · exact le_trans hle (hm.2 u hu)
      · simp [hle] at h
        subst h
        refine ⟨List.mem_cons_of_mem _ hm.1, ?_⟩
        intro u hu
        rcases List.mem_cons.mp hu with hu | hu
        · subst hu; exact le_of_not_le hle
        · exact hm.2 u hu

/-! ### Claim C1: with_transaction semantics -/

/-- C1: for every mutation `f` and starting on-disk Store state (a stored
database, or an empty/freshly created file which loads as a fresh Store),
`with_transaction` applies `f` to the Store loaded from disk; when `f`
succeeds the resulting Store overwrites the file and the produced value is
returned; when `f` fails no write occurs and the on-disk state is exactly
what it was before the transaction. -/
theorem C1_with_transaction_spec {T : Type} (f : Database → Except String (Database × T))
    (db db2 : Database) (v : T) (e : String) :
    (f db = .ok (db2, v) →
      with_transaction f (some (.stored db)) = (some (.stored db2), .ok v)) ∧
    (f db = .error e →
      with_transaction f (some (.stored db)) = (some (.stored db), .error (.mutationError e))) ∧
    (f Database.new = .ok (db2, v) →
      with_transaction f (some .empty) = (some (.stored db2), .ok v)) ∧
    (f Database.new = .error e →
      with_transaction f (some .empty) = (some .empty, .error (.mutationError e))) := by
  refine ⟨?_, ?_, ?_, ?_⟩ <;> intro h <;> simp [with_transaction, parseContents, h]

/-- Witness for C1 at a concrete mutation and store. -/
theorem C1_witness :
    with_transaction (fun db => Except.ok (db, (42 : Nat))) (some (.stored Database.new)) =
      (some (.stored Database.new), .ok 42) :=
  (C1_with_transaction_spec (fun db => Except.ok (db, (42 : Nat)))
    Database.new Database.new 42 "").1 rfl

/-! ### Claim C2: add_timer duration validation and effects -/

/-- C2 counterexample: on a store whose `next_id` is `2 ^ 32 - 1`, a valid
`add_timer` call succeeds but leaves `next_id = 0`, not `next_id + 1`
(the `u32` counter wraps), so "next_id then incremented by one" fails as
stated. -/
theorem C2_counterexample :
    ((Database.mk [] [] (U32_MOD - 1)).add_timer "x" 5 false false false 0 0).toOption.map
        (fun p => p.2.next_id) = some 0 ∧
    (0 : Nat) ≠ (U32_MOD - 1) + 1 := by
  constructor
  · rfl
  · norm_num [U32_MOD]

/-- C2 (amended): for every duration `d ≤ 31536000` the call succeeds and
returns a timer with `due_at - created_at = d`, id equal to the prior
`next_id`, with `next_id` incremented by one modulo `2 ^ 32` and the timer
appended to the active list (history untouched); for `d > 31536000` it
fails with the duration-too-large error, leaving the store unchanged (no
updated store is produced). -/
theorem C2_add_timer_amended (db : Database) (m : String) (d : Nat) (u s r : Bool)
    (now : Timestamp) (uuid : Nat) :
    (d ≤ MAX_DURATION_SECONDS →
      ∃ t db2, db.add_timer m d u s r now uuid = Except.ok (t, db2) ∧
        t.due_at - t.created_at = (d : Int) ∧
        t.created_at = now ∧
        t.id = db.next_id ∧
        db2.next_id = (db.next_id + 1) % U32_MOD ∧
        db2.timers = db.timers ++ [t] ∧
        db2.history = db.history) ∧
    (d > MAX_DURATION_SECONDS →
      db.add_timer m d u s r now uuid =
        Except.error "Duration too large (max 365 days)") := by
  constructor
  · intro hd
    have hnd : ¬ d > MAX_DURATION_SECONDS := Nat.not_lt.mpr hd
    unfold Database.add_timer
    simp only [hnd, if_false]
    exact ⟨_, _, rfl, by ring, rfl, rfl, rfl, rfl, rfl⟩
  · intro hd
    unfold Database.add_timer
    simp only [hd, if_true]
    rfl

/-- Witness for C2 at a concrete store and duration. -/
theorem C2_witness :
    (300 ≤ MAX_DURATION_SECONDS) ∧
    (∃ t db2, Database.new.add_timer "m" 300 false false false 0 0 = Except.ok (t, db2) ∧
      t.due_at - t.created_at = (300 : Int) ∧
      t.created_at = 0 ∧
      t.id = Database.new.next_id ∧
      db2.next_id = (Database.new.next_id + 1) % U32_MOD ∧
      db2.timers = Database.new.timers ++ [t] ∧
      db2.history = Database.new.history) :=
  ⟨by norm_num [MAX_DURATION_SECONDS],
   (C2_add_timer_amended Database.new "m" 300 false false false 0 0).1
     (by norm_num [MAX_DURATION_SECONDS])⟩

/-! ### Claim C3: ids strictly increasing, never reused -/

/-- C3 counterexample: after `2 ^ 32 - 1` successful adds from the empty
store (and removing the empty subset), the `u32` id counter has wrapped to
`0`, so one further add issues id `0`, which is not strictly greater than
the previously issued id `1`. -/
theorem C3_counterexample :
    wrapStore.next_id = 0 ∧
    (wrapStore.add_timer "x" 5 false false false 0 0).toOption.map
      (fun p => p.1.id) = some 0 ∧
    1 ∈ issuedIds (List.replicate (U32_MOD - 1) addSmall) Database.new ∧
    ¬ (0 : Nat) > 1 := by
  refine ⟨wrapStore_next_id, ?_, one_mem_issued_wrap, by norm_num⟩
  have h5 : ¬ (5 > MAX_DURATION_SECONDS) := by norm_num [MAX_DURATION_SECONDS]
  simp [Database.add_timer, h5, Except.toOption, wrapStore_next_id]

/-- C3 (amended): as long as fewer than `2 ^ 32 - 1` ids have been issued
(the `u32` `next_id` counter has not wrapped), for every sequence of
operations from the empty store `next_id` equals one plus the number of
issued ids, the issued ids are exactly `1, …, countAdds` in order, each is
strictly below the final `next_id` (so one further add always yields a
strictly greater id), and no id is ever issued twice. -/
theorem C3_ids_never_reused_amended (ops : List Op) (h : countAdds ops + 1 < U32_MOD) :
    (runOps ops Database.new).next_id = countAdds ops + 1 ∧
    issuedIds ops Database.new = List.range' 1 (countAdds ops) ∧
    (∀ i ∈ issuedIds ops Database.new, i < (runOps ops Database.new).next_id) ∧
    (issuedIds ops Database.new).Nodup := by
  have hnw := runOps_no_wrap ops Database.new
    (show Database.new.next_id + countAdds ops < U32_MOD by
      show 1 + countAdds ops < U32_MOD
      omega)
  have h1 : (runOps ops Database.new).next_id = countAdds ops + 1 := by
    rw [hnw.1]; show 1 + countAdds ops = _; omega
  refine ⟨h1, hnw.2, ?_, ?_⟩
  · intro i hi
    rw [hnw.2] at hi
    have := List.mem_range'_1.mp hi
    omega
  · rw [hnw.2]
    exact List.nodup_range' _ _ 1 (by norm_num)

/-- Witness for C3 at a concrete operation sequence (two adds with a
removal in between). -/
theorem C3_witness :
    countAdds [addSmall, Op.remove 1, addSmall] + 1 < U32_MOD ∧
    ((runOps [addSmall, Op.remove 1, addSmall] Database.new).next_id =
        countAdds [addSmall, Op.remove 1, addSmall] + 1 ∧
      issuedIds [addSmall, Op.remove 1, addSmall] Database.new =
        List.range' 1 (countAdds [addSmall, Op.remove 1, addSmall]) ∧
      (∀ i ∈ issuedIds [addSmall, Op.remove 1, addSmall] Database.new,
        i < (runOps [addSmall, Op.remove 1, addSmall] Database.new).next_id) ∧
      (issuedIds [addSmall, Op.remove 1, addSmall] Database.new).Nodup) :=
  ⟨by decide, C3_ids_never_reused_amended [addSmall, Op.remove 1, addSmall] (by decide)⟩

/-! ### Claim C4: history bounded at 20, front insertion, tail truncation -/

/-- The operation sequence of the 25-completions scenario: add 25 timers
(ids 1 to 25), then complete each in creation order. -/
def history25Ops : List Op :=
  (List.range 25).map (fun _ => Op.add "T" 10 false false false 0 0) ++
  (List.range 25).map (fun i => Op.complete (i + 1))

/-- The store after adding and completing 25 timers sequentially. -/
def db25 : Database := runOps history25Ops Database.new

/-- C4 counterexample: after completing 25 timers, index 19 of history
holds the timer completed 6th (id 6), which is the 20th-most-recently
completed one; the 6th-most-recently-completed timer has id 20 and sits at
index 5, not 19. -/
theorem C4_counterexample :
    (db25.history.get? 19).map Timer.id = some 6 ∧
    (((List.range 25).map (fun i => i + 1)).reverse.get? 5) = some 20 ∧
    (db25.history.get? 5).map Timer.id = some 20 ∧
    ¬ (db25.history.get? 19).map Timer.id = some 20 := by
  refine ⟨by decide, by decide, by decide, by decide⟩

/-- C4 (amended): under any sequence of store operations from the empty
store the history never exceeds 20 entries; insertion is always at the
front with truncation only from the tail (the new history is the first 20
entries of the old history with the new timer prepended); completing 25
timers sequentially leaves history of length exactly 20 with the most
recently completed timer (id 25) at index 0 and the timer completed 6th
(id 6, the 20th-most-recently-completed) at index 19. -/
theorem C4_history_amended :
    (∀ ops, (runOps ops Database.new).history.length ≤ MAX_HISTORY) ∧
    (∀ (db : Database) (t : Timer), (db.add_to_history t).history = (t :: db.history).take MAX_HISTORY) ∧
    db25.history.length = 20 ∧
    (db25.history.get? 0).map Timer.id = some 25 ∧
    (db25.history.get? 19).map Timer.id = some 6 := by
  refine ⟨?_, add_to_history_history, by decide, by decide, by decide⟩
  intro ops
  exact history_le_runOps ops Database.new (by simp [Database.new, MAX_HISTORY])

/-! ### Claim C5: complete_timer is remove_timer then add_to_history -/

/-- C5: `complete_timer` produces exactly the Store and return value of
`remove_timer` followed (when a timer was found) by `add_to_history` of
the removed timer: the active count drops by exactly one and the removed
timer is prepended to history (which is truncated to the 20-entry cap);
when the id is absent nothing changes. -/
theorem C5_complete_eq_remove_then_history (db : Database) (id : Nat) :
    (db.complete_timer id =
      match db.remove_timer id with
      | (none, _) => (none, db)
      | (some t, db2) => (some t, db2.add_to_history t)) ∧
    (∀ t db2, db.remove_timer id = (some t, db2) →
      (db.complete_timer id).2.timers.length + 1 = db.timers.length ∧
      (db.complete_timer id).2.history = (t :: db.history).take MAX_HISTORY ∧
      (db.complete_timer id).2.history.head? = some t) ∧
    (db.remove_timer id = (none, db) → db.complete_timer id = (none, db)) := by
  refine ⟨?_, ?_, ?_⟩
  · unfold Database.complete_timer Database.remove_timer
    cases removeFirst id db.timers with
    | none => rfl
    | some p => rfl
  · intro t db2 h
    unfold Database.remove_timer at h
    cases hr : removeFirst id db.timers with
    | none => rw [hr] at h; simp at h
    | some p =>
      obtain ⟨p1, p2⟩ := p
      rw [hr] at h
      have ht : p1 = t := by
        have := congrArg Prod.fst h
        simpa using this
      subst ht
      have hcomp : db.complete_timer id =
          (some p1, Database.add_to_history { db with timers := p2 } p1) := by
        unfold Database.complete_timer
        rw [hr]
      rw [hcomp]
      refine ⟨?_, ?_, ?_⟩
      · rw [add_to_history_timers]
        exact removeFirst_length id db.timers p1 p2 hr
      · rw [add_to_history_history]
      · rw [add_to_history_history]
        simp [MAX_HISTORY, List.take_succ_cons]
  · intro h
    unfold Database.complete_timer
    cases hr : removeFirst id db.timers with
    | none => rfl
    | some p =>
      unfold Database.remove_timer at h
      rw [hr] at h
      simp at h

/-- A concrete one-timer store used by several witnesses. -/
def tW : Timer :=
  { uuid := 0, id := 1, message := "w", duration_seconds := 10,
    created_at := 0, due_at := 10, urgent := false, sound := false, recurring := false }

/-- Witness for C5 at a concrete store containing one timer. -/
theorem C5_witness :
    ((Database.mk [tW] [] 2).complete_timer 1).2.timers.length + 1 =
      (Database.mk [tW] [] 2).timers.length ∧
    ((Database.mk [tW] [] 2).complete_timer 1).2.history =
      (tW :: (Database.mk [tW] [] 2).history).take MAX_HISTORY ∧
    ((Database.mk [tW] [] 2).complete_timer 1).2.history.head? = some tW :=
  (C5_complete_eq_remove_then_history (Database.mk [tW] [] 2) 1).2.1 tW
    (Database.mk [] [] 2) (by decide)

/-! ### Claim C6: reset_timer semantics -/

/-- C6: on a store whose active list contains the timer with the given id
(first occurrence `t`, satisfying the data-model invariant
`due_at = created_at + duration_seconds`), and a clock that has advanced
past `t.created_at`, `reset_timer` re-stamps exactly that timer with
`created_at = now` and `due_at = now + duration_seconds` — strictly
increasing both — leaving id, uuid, message, duration and flags unchanged
(the updated timer is `t` with only the two timestamps replaced), and
returns the updated copy; on an absent id it returns `none` and leaves the
store untouched. -/
theorem C6_reset_timer_spec (db : Database) (id : Nat) (now : Timestamp) :
    (∀ pre t post,
      db.timers = pre ++ t :: post →
      (∀ u ∈ pre, u.id ≠ id) →
      t.id = id →
      t.due_at = t.created_at + (t.duration_seconds : Int) →
      t.created_at < now →
      db.reset_timer id now =
        (some { t with due_at := now + (t.duration_seconds : Int), created_at := now },
          { db with timers :=
            pre ++ { t with due_at := now + (t.duration_seconds : Int), created_at := now } :: post }) ∧
      t.created_at < now ∧
      t.due_at < now + (t.duration_seconds : Int)) ∧
    ((∀ u ∈ db.timers, u.id ≠ id) → db.reset_timer id now = (none, db)) := by
  constructor
  · intro pre t post htimers hpre ht hinv hclock
    refine ⟨?_, hclock, ?_⟩
    · unfold Database.reset_timer
      rw [htimers, resetFirst_append id now pre t post hpre ht]
    · rw [hinv]
      exact add_lt_add_right hclock _
  · intro h
    unfold Database.reset_timer
    rw [resetFirst_none id now db.timers h]

/-- Witness for C6 at a concrete store and clock reading. -/
theorem C6_witness :
    (Database.mk [tW] [] 2).reset_timer 1 5 =
      (some { tW with due_at := (5 : Int) + (tW.duration_seconds : Int), created_at := 5 },
        { Database.mk [tW] [] 2 with timers :=
          [] ++ { tW with due_at := (5 : Int) + (tW.duration_seconds : Int), created_at := 5 } :: [] }) ∧
    tW.created_at < 5 ∧
    tW.due_at < (5 : Int) + (tW.duration_seconds : Int) :=
  (C6_reset_timer_spec (Database.mk [tW] [] 2) 1 5).1 [] tW []
    (by decide) (by simp) (by decide) (by decide) (by decide)

/-! ### Claim C7: get_expired_timers is the due_at filter -/

/-- C7: `get_expired_timers` returns exactly the active timers whose
`due_at ≤ now` — a timer due strictly after `now` (e.g. one second in the
future) is excluded, one due at or before `now` is included — and the
store itself is not mutated (the model takes the store immutably). -/
theorem C7_expired_timers_spec (db : Database) (now : Timestamp) :
    (∀ t, t ∈ db.get_expired_timers now ↔ t ∈ db.timers ∧ t.due_at ≤ now) ∧
    (∀ t, t ∈ db.timers → t.due_at = now + 1 → t ∉ db.get_expired_timers now) ∧
    (∀ t, t ∈ db.timers → t.due_at ≤ now → t ∈ db.get_expired_timers now) := by
  have hmem : ∀ t, t ∈ db.get_expired_timers now ↔ t ∈ db.timers ∧ t.due_at ≤ now := by
    intro t
    simp [Database.get_expired_timers, List.mem_filter]
  refine ⟨hmem, ?_, ?_⟩
  · intro t ht hdue hc
    have hle := ((hmem t).mp hc).2
    rw [hdue] at hle
    exact absurd hle (by simp)
  · intro t ht hdue
    exact (hmem t).mpr ⟨ht, hdue⟩

/-- Witness for C7 at a concrete store and time. -/
theorem C7_witness : tW ∈ (Database.mk [tW] [] 2).get_expired_timers 10 :=
  (C7_expired_timers_spec (Database.mk [tW] [] 2) 10).2.2 tW (by simp) (by decide)

/-! ### Claim C8: daemon sleep-interval computation -/

/-- A bare timer with a given id and due time, used by concrete sleep
computations. -/
def mkT (id : Nat) (due : Timestamp) : Timer :=
  { uuid := 0, id := id, message := "t", duration_seconds := 0,
    created_at := 0, due_at := due, urgent := false, sound := false, recurring := false }

/-- C8: the sleep computation selects a timer with the earliest `due_at`
and yields `(due_at - now) + 1` seconds when that difference is positive,
`1` second when it is zero or negative, `30` seconds when no timer is
found, always clamped to at most 3600 seconds; concretely, timers due in
10 s / 45 min / 2 h yield 11 s, a timer 5 s overdue yields 1 s, and a lone
timer due in 3 h yields 3600 s, not 10801. -/
theorem C8_sleep_interval_spec (timers : List Timer) (now : Timestamp) :
    (timers = [] → sleep_seconds timers now = 30) ∧
    (∀ t, minByDue timers = some t →
      t ∈ timers ∧ (∀ u ∈ timers, t.due_at ≤ u.due_at) ∧
      sleep_seconds timers now =
        (if t.due_at - now > 0 then min (t.due_at - now + 1).toNat SECONDS_PER_HOUR else 1)) ∧
    sleep_seconds timers now ≤ SECONDS_PER_HOUR ∧
    sleep_seconds [mkT 1 10, mkT 2 2700, mkT 3 7200] 0 = 11 ∧
    sleep_seconds [mkT 1 (-5)] 0 = 1 ∧
    sleep_seconds [mkT 1 10800] 0 = 3600 := by
  refine ⟨?_, ?_, ?_, by decide, by decide, by decide⟩
  · intro h
    subst h
    rfl
  · intro t h
    have hs := minByDue_spec timers t h
    refine ⟨hs.1, hs.2, ?_⟩
    unfold sleep_seconds
    rw [h]
    by_cases hpos : t.due_at - now > 0
    · simp [hpos]
    · simp [hpos]
      norm_num [SECONDS_PER_HOUR]
  · unfold sleep_seconds
    exact Nat.min_le_right _ _

/-- Witness for C8 at the empty timer list. -/
theorem C8_witness : ([] : List Timer) = [] ∧ sleep_seconds [] 0 = 30 :=
  ⟨rfl, (C8_sleep_interval_spec [] 0).1 rfl⟩

/-! ### Claim C9: daemon iteration handling and termination -/

/-- C9: per expired timer, a recurring timer has a copy prepended to
history (with the 20-cap) and its active entry re-stamped in place — it
stays active with the same id and a new due time — while a non-recurring
timer is completed (moved from the active list into history); the loop
exits exactly when the active list is empty after processing, and on that
normal exit the PID marker file is removed. -/
theorem C9_daemon_step_spec :
    (∀ (db : Database) (t : Timer) (now : Timestamp), t.recurring = true →
      (processExpiredTimer db t now).history = (t :: db.history).take MAX_HISTORY ∧
      (∀ pre u post, db.timers = pre ++ u :: post →
        (∀ w ∈ pre, w.id ≠ t.id) → u.id = t.id →
        (processExpiredTimer db t now).timers =
          pre ++ { u with due_at := now + (u.duration_seconds : Int), created_at := now } :: post)) ∧
    (∀ (db : Database) (t : Timer) (now : Timestamp), t.recurring = false →
      processExpiredTimer db t now = (db.complete_timer t.id).2 ∧
      (∀ pre u post, db.timers = pre ++ u :: post →
        (∀ w ∈ pre, w.id ≠ t.id) → u.id = t.id →
        (processExpiredTimer db t now).timers = pre ++ post ∧
        (processExpiredTimer db t now).history = (u :: db.history).take MAX_HISTORY)) ∧
    (∀ (clock : Nat → Timestamp) (fuel i : Nat) (st stF : DaemonState),
      daemonLoop clock fuel i st = some stF →
      stF.db.timers = [] ∧ stF.pidFilePresent = false) ∧
    (∀ (clock : Nat → Timestamp) (fuel i : Nat) (st : DaemonState),
      (daemonIteration st.db (clock i)).timers = [] →
      daemonLoop clock (fuel + 1) i st =
        some { db := daemonIteration st.db (clock i), pidFilePresent := false }) ∧
    (∀ (clock : Nat → Timestamp) (fuel i : Nat) (st : DaemonState),
      (daemonIteration st.db (clock i)).timers ≠ [] →
      daemonLoop clock (fuel + 1) i st =
        daemonLoop clock fuel (i + 1) { st with db := daemonIteration st.db (clock i) }) := by
  refine ⟨?_, ?_, ?_, ?_, ?_⟩
  · intro db t now ht
    constructor
    · rw [processExpiredTimer, if_pos (by simp [ht])]
      rw [reset_timer_history, add_to_history_history]
    · intro pre u post hdec hpre hu
      have htimers : (db.add_to_history t).timers = pre ++ u :: post := by
        rw [add_to_history_timers, hdec]
      rw [processExpiredTimer, if_pos (by simp [ht])]
      unfold Database.reset_timer
      rw [htimers, resetFirst_append t.id now pre u post hpre hu]
  · intro db t now ht
    have hproc : processExpiredTimer db t now = (db.complete_timer t.id).2 := by
      rw [processExpiredTimer, if_neg (by simp [ht])]
    refine ⟨hproc, ?_⟩
    intro pre u post hdec hpre hu
    have hrm := removeFirst_append t.id pre u post hpre hu
    constructor
    · rw [hproc]
      unfold Database.complete_timer
      rw [hdec, hrm]
      simp [add_to_history_timers]
    · rw [hproc]
      unfold Database.complete_timer
      rw [hdec, hrm]
      simp [add_to_history_history]
  · intro clock fuel
    induction fuel with
    | zero =>
      intro i st stF h
      simp [daemonLoop] at h
    | succ fuel ih =>
      intro i st stF h
      cases he : (daemonIteration st.db (clock i)).timers.isEmpty with
      | true =>
        simp only [daemonLoop, he, if_true] at h
        have hst : stF = { db := daemonIteration st.db (clock i), pidFilePresent := false } := by
          exact (Option.some.injEq _ _).mp h |>.symm
        subst hst
        refine ⟨?_, rfl⟩
        simpa [List.isEmpty_iff] using he
      | false =>
        simp only [daemonLoop, he, if_false] at h
        exact ih (i + 1) { st with db := daemonIteration st.db (clock i) } stF h
  · intro clock fuel i st h
    have he : (daemonIteration st.db (clock i)).timers.isEmpty = true := by
      rw [h]
      rfl
    simp only [daemonLoop, he, if_true]
  · intro clock fuel i st h
    have he : (daemonIteration st.db (clock i)).timers.isEmpty = false := by
      cases hx : (daemonIteration st.db (clock i)).timers with
      | nil => exact absurd hx h
      | cons a as => rfl
    simp only [daemonLoop, he]
    simp

/-- Witness for C9: a one-iteration run on an empty store exits at once
with the marker file removed. -/
theorem C9_witness :
    ({ db := Database.new, pidFilePresent := false } : DaemonState).db.timers = [] ∧
    ({ db := Database.new, pidFilePresent := false } : DaemonState).pidFilePresent = false :=
  C9_daemon_step_spec.2.2.1 (fun _ => 0) 1 0 { db := Database.new, pidFilePresent := true }
    { db := Database.new, pidFilePresent := false } (by rfl)

/-! ### Claim C10: no lost update between two concurrent transactions -/

/-- Number of finished transactions contributed by a phase. -/
def doneCount : TxPhase → Nat
  | .done => 1
  | _ => 0

/-- A process not holding the lock is either before its transaction or
finished. -/
def idleOrDone : TxPhase → Prop
  | .start => True
  | .done => True
  | _ => False

/-- Invariant of the lock holder: its private snapshot agrees with the
disk (the read happened under the lock), and the disk counter counts the
finished increments, plus this process's own increment once written. -/
def holderSysInv (disk : Database) (mine other : TxPhase) : Prop :=
  idleOrDone other ∧
  (match mine with
   | .locked => disk.next_id = 1 + doneCount other
   | .loaded db => db = disk ∧ disk.next_id = 1 + doneCount other
   | .mutated db => db = incrementCounter disk ∧ disk.next_id = 1 + doneCount other
   | .written => disk.next_id = 2 + doneCount other
   | _ => False)

/-- Global invariant of the two-writer system started from `initSys`: the
persisted counter always equals one (its initial value) plus the number of
increments already applied. -/
def SysInv (s : Sys) : Prop :=
  match s.lock with
  | none =>
    idleOrDone s.p0 ∧ idleOrDone s.p1 ∧
    s.disk.next_id = 1 + doneCount s.p0 + doneCount s.p1
  | some who =>
    if who then holderSysInv s.disk s.p1 s.p0 else holderSysInv s.disk s.p0 s.p1

theorem two_mod_u32 : (2 : Nat) % U32_MOD = 2 := by norm_num [U32_MOD]

theorem three_mod_u32 : (3 : Nat) % U32_MOD = 3 := by norm_num [U32_MOD]

theorem inv_sysStep (s : Sys) (who : Bool) (h : SysInv s) : SysInv (sysStep s who) := by
  rcases s with ⟨disk, lock, p0, p1⟩
  cases who <;> rcases lock with _ | b <;> (try cases b) <;> cases p0 <;> cases p1 <;>
    simp_all [SysInv, sysStep, phaseStep, holderSysInv, idleOrDone, doneCount,
      incrementCounter, two_mod_u32, three_mod_u32]

theorem inv_sysRun : ∀ (sched : List Bool) (s : Sys), SysInv s → SysInv (sysRun sched s) := by
  intro sched
  induction sched with
  | nil => intro s h; exact h
  | cons w ws ih => intro s h; exact ih _ (inv_sysStep s w h)

theorem inv_initSys : SysInv initSys := by
  simp [SysInv, initSys, idleOrDone, doneCount, Database.new]

/-- C10: under every interleaving of the two processes, each running
`with_transaction` (exclusive lock held from before the read to after the
write) with a mutation that increments the shared counter once, if both
transactions have completed then the persisted counter equals its initial
value plus both increments — no update is lost. -/
theorem C10_no_lost_update (sched : List Bool)
    (h0 : (sysRun sched initSys).p0 = .done) (h1 : (sysRun sched initSys).p1 = .done) :
    (sysRun sched initSys).disk.next_id = 3 := by
  have hinv := inv_sysRun sched initSys inv_initSys
  cases hl : (sysRun sched initSys).lock with
  | none =>
    simp only [SysInv, hl] at hinv
    rw [h0, h1] at hinv
    simpa [doneCount] using hinv.2.2
  | some who =>
    simp only [SysInv, hl] at hinv
    cases who
    · simp [holderSysInv, h0, idleOrDone] at hinv
    · simp [holderSysInv, h1, idleOrDone] at hinv

/-- A concrete schedule in which process 0 runs its whole transaction,
then process 1 runs its whole transaction. -/
def schedW : List Bool :=
  [false, false, false, false, false, true, true, true, true, true]

/-- Witness for C10 at a concrete serial schedule. -/
theorem C10_witness : (sysRun schedW initSys).disk.next_id = 3 :=
  C10_no_lost_update schedW (by decide) (by decide)
